import Mathlib

/-!
Shallow embedding of the offline data cache and synchronization subsystem
(`src/services/offlineDataCache.ts`, `offlineStorage`, and the bundled data
service) of the Opine-Android-Sync application, with theorems checking the
specification's claims against the translated code.
-/

set_option maxRecDepth 4000

namespace OpineSync

/-! ## Character/string utilities mirroring the JavaScript string operations -/

/-- JavaScript whitespace (the forms that occur in this code base). -/
def isWs (c : Char) : Bool :=
  c = ' ' || c = '\t' || c = '\n' || c = '\r'

/-- `String.prototype.trim()` on a character list. -/
def trimWs (l : List Char) : List Char :=
  ((l.dropWhile isWs).reverse.dropWhile isWs).reverse

/-- Fueled worker for `collapseWs`; fuel is always at least the list
length, so the fuel-exhausted branch is unreachable. -/
def collapseWsAux : Nat → List Char → List Char
  | 0, l => l
  | _ + 1, [] => []
  | fuel + 1, c :: t =>
    if isWs c then ' ' :: collapseWsAux fuel (t.dropWhile isWs)
    else c :: collapseWsAux fuel t

/-- `replace(/\s+/g, ' ')`: each maximal whitespace run becomes one space. -/
def collapseWs (l : List Char) : List Char :=
  collapseWsAux l.length l

/-- Try to match the regex `\s*\([^)]*\)\s*` at the head of the list,
returning the remainder after the match. -/
def matchParen (l : List Char) : Option (List Char) :=
  let r := l.dropWhile isWs
  match r with
  | '(' :: r₂ =>
    let r₃ := r₂.dropWhile (fun c => c ≠ ')')
    match r₃ with
    | ')' :: r₄ => some (r₄.dropWhile isWs)
    | _ => none
  | _ => none

/-- Fueled worker for `stripParens`; fuel is always at least the list length. -/
def stripParensAux : Nat → List Char → List Char
  | 0, l => l
  | _ + 1, [] => []
  | fuel + 1, c :: t =>
    match matchParen (c :: t) with
    | some rest => stripParensAux fuel rest
    | none => c :: stripParensAux fuel t

/-- `replace(/\s*\([^)]*\)\s*/g, '')`: remove every parenthesised group
together with surrounding whitespace. -/
def stripParens (l : List Char) : List Char :=
  stripParensAux l.length l

/-- `String.prototype.toLowerCase()` (ASCII, as used here). -/
def lowerList (l : List Char) : List Char :=
  l.map Char.toLower

/-- Contiguous-sublist test: JavaScript `hay.includes(needle)`. -/
def isSubList (needle : List Char) : List Char → Bool
  | [] => needle.isEmpty
  | c :: t => needle.isPrefixOf (c :: t) || isSubList needle t

/-- JavaScript `a.includes(b)` on strings. -/
def strContains (a b : String) : Bool :=
  isSubList b.toList a.toList

/-- `/^\d+$/.test(s)`. -/
def isNumericStr (s : String) : Bool :=
  !s.toList.isEmpty && s.toList.all Char.isDigit

/-- First-match association-list lookup (JavaScript object property read). -/
def lookupAssoc {α : Type} : List (String × α) → String → Option α
  | [], _ => none
  | (k', v) :: t, k => if k' = k then some v else lookupAssoc t k

/-- JavaScript object property write: update in place, else append. -/
def assocSet {α : Type} : List (String × α) → String → α → List (String × α)
  | [], k, v => [(k, v)]
  | (k', v') :: t, k, v =>
    if k' = k then (k, v) :: t else (k', v') :: assocSet t k v

/-! ## All-ACs-for-state cache (`OfflineDataCacheService`)

The `offline_all_acs_for_state` bucket maps a state name to its cached AC
list (`{ acs, cachedAt }`); AC entries are kept abstract as their display
names. -/

/-- The `offline_all_acs_for_state` bucket: state name → cached AC list. -/
def AllACsStore : Type := String → Option (List String)

/-- `OfflineDataCacheService.clearACsForState`: delete the state's entry and
write the bucket back. -/
def clearACsForState (state : String) (store : AllACsStore) : AllACsStore :=
  fun s => if s = state then none else store s

/-- The completeness floor used by `getAllACsForState`:
`state === 'West Bengal' ? 200 : 50`. -/
def minExpectedACs (state : String) : Nat :=
  if state = "West Bengal" then 200 else 50

/-- `OfflineDataCacheService.getAllACsForState`: return the cached list when
it meets the completeness floor; otherwise evict the entry via
`clearACsForState` and return `[]`. Returns the result list together with the
bucket state after the call. -/
def getAllACsForState (state : String) (store : AllACsStore) :
    List String × AllACsStore :=
  match store state with
  | none => ([], store)
  | some cachedACs =>
    if minExpectedACs state ≤ cachedACs.length then (cachedACs, store)
    else ([], clearACsForState state store)

/-! ## Interview Record Store (`OfflineStorageService`)

The `offline_interviews` bucket holds the whole interview collection as one
serialized array.  Opaque payload fields of an interview are summarised by
an abstract serialized size `rest`; the embedded survey body carries its own
size and optional `surveyName`. -/

/-- Interview status: `'pending' | 'syncing' | 'synced' | 'failed'`. -/
inductive IStatus
  | pending
  | syncing
  | synced
  | failed
deriving DecidableEq, Repr

/-- The embedded full survey object (only the parts the store touches:
its `surveyName` and its contribution to the serialized size). -/
structure SurveyBody where
  surveyName : Option String
  bodySize : Nat
deriving DecidableEq, Repr

/-- One `OfflineInterview` record.  `rest` abstracts the serialized size of
all remaining fields (responses, location, audio, metadata, ...). -/
structure Interview where
  id : String
  surveyId : String
  survey : Option SurveyBody
  surveyName : Option String
  status : Option IStatus
  syncAttempts : Nat
  lastSyncAttempt : Option Nat
  error : Option String
  rest : Nat
deriving DecidableEq, Repr

/-- `JSON.stringify(interview).length` in the abstraction: the opaque part
plus the embedded survey body plus the stored name and error strings. -/
def entrySize (i : Interview) : Nat :=
  i.rest + (match i.survey with | some sb => sb.bodySize | none => 0)
    + (match i.surveyName with | some n => n.length | none => 0)
    + (match i.error with | some e => e.length | none => 0)

/-- One raw element of the parsed stored array: either a malformed entry
(`null` / not an object) or an interview object. -/
inductive RawEntry
  | bad
  | obj (i : Interview)
deriving DecidableEq, Repr

/-- The `offline_interviews` storage key: absent, a stored array, or a read
that fails with the AsyncStorage `Row too big` error. -/
inductive InterviewStore
  | missing
  | rows (l : List RawEntry)
  | tooBig
deriving DecidableEq, Repr

/-- The storage buckets owned by `OfflineStorageService`.  Buckets other
than the interview collection are opaque; they are carried to state frame
properties. -/
structure StorageState where
  interviews : InterviewStore
  syncQueue : List Nat
  surveys : Option Nat
  lastSync : Option Nat
deriving DecidableEq, Repr

/-- The validation filter of `getOfflineInterviews`: keep an entry iff it is
an object, carries a (truthy) id, and its serialized size is not
anomalously large (`> 2000000` is dropped). -/
def entryOk : RawEntry → Option Interview
  | .bad => none
  | .obj i => if i.id ≠ "" ∧ entrySize i ≤ 2000000 then some i else none

/-- Parse-and-filter of the stored collection. -/
def cleanList (l : List RawEntry) : List Interview :=
  l.filterMap entryOk

/-- Result of `getOfflineInterviews`: the returned list, the storage state
after the call, and whether the distinguishable `Row too big` warning was
raised. -/
structure ReadOut where
  list : List Interview
  store : StorageState
  rowTooBigWarned : Bool
deriving DecidableEq, Repr

/-- `OfflineStorageService.getOfflineInterviews`:
* no stored data: return `[]`;
* stored array: filter out corrupted entries and, if any were filtered,
  immediately write the cleaned collection back (self-healing);
* `Row too big` read failure: warn distinguishably, remove the storage key
  entirely and return `[]`. -/
def getOfflineInterviews (st : StorageState) : ReadOut :=
  match st.interviews with
  | .missing => ⟨[], st, false⟩
  | .tooBig => ⟨[], { st with interviews := .missing }, true⟩
  | .rows l =>
    let valid := cleanList l
    if valid.length < l.length then
      ⟨valid, { st with interviews := .rows (valid.map .obj) }, false⟩
    else
      ⟨valid, st, false⟩

/-- JavaScript truthiness of an optional string (`'' || x` falls through). -/
def strTruthy : Option String → Bool
  | some s => s ≠ ""
  | none => false

/-- `a || b || undefined` on optional strings. -/
def jsOrStr (a b : Option String) : Option String :=
  if strTruthy a then a else if strTruthy b then b else none

/-- The `interviewToSave` construction in `saveOfflineInterview`: drop the
full survey object, keeping `surveyName` (falling back to the embedded
survey's name). -/
def stripSurvey (x : Interview) : Interview :=
  { x with
    survey := none
    surveyName := jsOrStr x.surveyName (x.survey.bind (·.surveyName)) }

/-- Upsert by id: replace the first record with the same id; otherwise
default a missing status to `'pending'` and append (the
`findIndex`/assign/push logic of `saveOfflineInterview`). -/
def upsertInterview (x : Interview) : List Interview → List Interview
  | [] => [if x.status = none then { x with status := some .pending } else x]
  | i :: t => if i.id = x.id then x :: t else i :: upsertInterview x t

/-- `OfflineStorageService.saveOfflineInterview`: strip the survey body,
read the collection (which may self-heal), upsert by id and write back. -/
def saveOfflineInterview (x : Interview) (st : StorageState) : StorageState :=
  let stripped := stripSurvey x
  let r := getOfflineInterviews st
  { r.store with
    interviews := .rows ((upsertInterview stripped r.list).map .obj) }

/-- `OfflineStorageService.getOfflineInterviews` status predicate used by
`getPendingInterviews`: `!status || status === 'pending' || status === 'failed'`. -/
def isPendingStatus (s : Option IStatus) : Bool :=
  s = none || s = some .pending || s = some .failed

/-- `OfflineStorageService.getPendingInterviews`. -/
def getPendingInterviews (st : StorageState) : List Interview × StorageState :=
  let r := getOfflineInterviews st
  (r.list.filter (fun i => isPendingStatus i.status), r.store)

/-- `OfflineStorageService.getOfflineInterviewById`. -/
def getOfflineInterviewById (interviewId : String) (st : StorageState) :
    Option Interview × StorageState :=
  let r := getOfflineInterviews st
  (r.list.find? (fun i => i.id = interviewId), r.store)

/-- The field updates `updateInterviewStatus` applies to the record it
found: the requested status and the last-attempt timestamp always; the
error string and the attempt counter when a (truthy) error is given. -/
def applyStatusUpdate (i : Interview) (status : IStatus)
    (err : Option String) (now : Nat) : Interview :=
  let i' := { i with status := some status, lastSyncAttempt := some now }
  if strTruthy err then
    { i' with error := err, syncAttempts := i'.syncAttempts + 1 }
  else i'

/-- `OfflineStorageService.updateInterviewStatus`: look the record up,
apply `applyStatusUpdate` unconditionally, and persist via
`saveOfflineInterview`. -/
def updateInterviewStatus (interviewId : String) (status : IStatus)
    (err : Option String) (now : Nat) (st : StorageState) : StorageState :=
  let r := getOfflineInterviews st
  match r.list.find? (fun i => i.id = interviewId) with
  | none => r.store
  | some i => saveOfflineInterview (applyStatusUpdate i status err now) r.store

/-- `OfflineStorageService.deleteSyncedInterview`: read the collection
(which may self-heal), drop every record with the given id and write back. -/
def deleteSyncedInterview (interviewId : String) (st : StorageState) :
    StorageState :=
  let r := getOfflineInterviews st
  { r.store with
    interviews :=
      .rows ((r.list.filter (fun i => i.id ≠ interviewId)).map .obj) }

/-! ## Polling-groups cache (`OfflineDataCacheService.getPollingGroups`) -/

/-- One cached polling-groups entry (`PollingGroup`). `payload` abstracts
the remaining fields of the stored object. -/
structure PGroup where
  state : String
  acIdentifier : String
  ac_name : Option String
  groups : List String
  payload : Nat
deriving DecidableEq, Repr

/-- The normalization used by the polling-groups fallback scan:
`toLowerCase().replace(/\s*\([^)]*\)\s*/g, '').trim().replace(/\s+/g, ' ')`. -/
def normCacheName (s : String) : String :=
  String.mk (collapseWs (trimWs (stripParens (lowerList s.toList))))

/-- The three-way comparison used at every fallback tier:
equality, or containment in either direction. -/
def nameMatches (cached search : String) : Bool :=
  cached = search || strContains cached search || strContains search cached

/-- The fallback scan of `getPollingGroups` over all cached entries for the
state, in insertion order; first match wins.  For each entry scoped to the
state it tries: (1) the stored display name `ac_name`, normalized;
(2) the numeric-AC-code variant of the same display-name check;
(3) the normalized cache key itself. -/
def pollingGroupsScan (state nss : String) :
    List (String × PGroup) → Option PGroup
  | [] => none
  | (cachedKey, cachedData) :: t =>
    if (state ++ "::").toList.isPrefixOf cachedKey.toList then
      let cachedACIdentifier :=
        String.mk (cachedKey.toList.drop (state ++ "::").toList.length)
      let acNameTruthy := strTruthy cachedData.ac_name
      let normalizedCachedName :=
        if acNameTruthy then normCacheName ((cachedData.ac_name).getD "")
        else ""
      if acNameTruthy && nameMatches normalizedCachedName nss then
        some cachedData
      else if isNumericStr cachedACIdentifier && acNameTruthy
          && nameMatches normalizedCachedName nss then
        some cachedData
      else
        let normalizedCachedKey := normCacheName cachedACIdentifier
        if nameMatches normalizedCachedKey nss then some cachedData
        else pollingGroupsScan state nss t
    else pollingGroupsScan state nss t

/-- `OfflineDataCacheService.getPollingGroups`: exact composite-key lookup
first, then the three-tier normalized fallback scan, else `null`. -/
def getPollingGroups (state acIdentifier : String)
    (allGroups : List (String × PGroup)) : Option PGroup :=
  let key := state ++ "::" ++ acIdentifier
  match lookupAssoc allGroups key with
  | some result => some result
  | none =>
    pollingGroupsScan state (normCacheName acIdentifier) allGroups

/-! ## AC-name normalization table (`OfflineDataCacheService.normalizeACName`) -/

/-- The static spelling-variant table mapping survey spellings to
master-data spellings. -/
def acNameMappings : List (String × String) :=
  [ ("Cooch Behar Uttar", "COOCHBEHAR UTTAR (SC)")
  , ("Cooch Behar Dakshin", "COOCHBEHAR DAKSHIN")
  , ("Coochbehar Uttar", "COOCHBEHAR UTTAR (SC)")
  , ("Coochbehar Dakshin", "COOCHBEHAR DAKSHIN")
  , ("COOCH BEHAR UTTAR", "COOCHBEHAR UTTAR (SC)")
  , ("COOCH BEHAR DAKSHIN", "COOCHBEHAR DAKSHIN") ]

/-- Case-insensitive scan over the mapping table. -/
def acMappingScanCI (normalized : String) :
    List (String × String) → Option String
  | [] => none
  | (k, v) :: t =>
    if lowerList k.toList = lowerList normalized.toList then some v
    else acMappingScanCI normalized t

/-- `OfflineDataCacheService.normalizeACName`: exact table hit, then
case-insensitive table hit on the trimmed name, else pass through. -/
def normalizeACName (acName : String) : String :=
  if acName = "" then acName
  else
    match lookupAssoc acNameMappings acName with
    | some v => v
    | none =>
      let normalized := String.mk (trimWs acName.toList)
      match acMappingScanCI normalized acNameMappings with
      | some v => v
      | none => acName

/-! ## Bundled Reference Dataset Loader (`BundledDataService`) -/

/-- One AC record of the bundled `polling_stations.json` dataset (only the
field `findACNumberByName` reads). -/
structure BundledAC where
  ac_name : Option String
deriving DecidableEq, Repr

/-- The bundled dataset: state → (AC number → AC record), in iteration
order. -/
def BundledData : Type := List (String × List (String × BundledAC))

/-- The search-name normalization of `findACNumberByName`:
`String(acName).trim()`, then `.toLowerCase().replace(/\s+/g, ' ')`. -/
def bundledNormName (s : String) : String :=
  String.mk (collapseWs (lowerList (trimWs s.toList)))

/-- `replace(/\s*\([^)]*\)\s*/g, '').trim()` on an already-normalized name. -/
def withoutParens (s : String) : String :=
  String.mk (trimWs (stripParens s.toList))

/-- The per-entry loop of `findACNumberByName`: exact normalized match,
partial containment, or equality after stripping parenthetical suffixes. -/
def findACScan (nss : String) :
    List (String × BundledAC) → Option String
  | [] => none
  | (acNo, acData) :: t =>
    match acData.ac_name with
    | none => findACScan nss t
    | some nm =>
      let nsn := bundledNormName nm
      if nsn = nss then some acNo
      else if strContains nsn nss || strContains nss (withoutParens nsn) then
        some acNo
      else if withoutParens nsn = withoutParens nss then some acNo
      else findACScan nss t

/-- `BundledDataService.findACNumberByName`: resolve a free-text AC name to
its AC number for a state of the bundled dataset; `null` when the state is
absent, the name is blank or `'N/A'`, or no tier matches. -/
def findACNumberByName (data : BundledData) (state acName : String) :
    Option String :=
  match lookupAssoc data state with
  | none => none
  | some entries =>
    let acNameStr := String.mk (trimWs acName.toList)
    if acNameStr = "" ∨ acNameStr = "N/A" then none
    else findACScan (bundledNormName acNameStr) entries

/-- Modelled from the spec: the bundled `polling_stations.json` dataset is
not under `src/`; per the spec's testable property, its West Bengal section
contains the canonical entry with `ac_name` `"COOCHBEHAR UTTAR (SC)"`
(together with the neighbouring `"COOCHBEHAR DAKSHIN"` the normalization
table also names). -/
def bundledDatasetModel : BundledData :=
  [ ("West Bengal",
      [ ("5", ⟨some "COOCHBEHAR UTTAR (SC)"⟩)
      , ("6", ⟨some "COOCHBEHAR DAKSHIN"⟩) ]) ]

/-! ## Bulk Provisioning Orchestrator
(`OfflineDataCacheService.downloadDependentDataForSurveys`)

The remote API and the bundled loader are abstracted as an oracle of
responses; `None` stands for a failed / non-success call (caught per item
in the source).  The active code path ends at the early `return` after the
pre-warm branch; the commented-out legacy download below it is dead code. -/

/-- The cache buckets owned by `OfflineDataCacheService`. -/
structure CacheState where
  allACs : String → Option (List String)
  pollingGroups : List (String × PGroup)
  pollingStations : List (String × Nat)
  genderQuotas : String → Option Nat
  catiSetNumbers : String → Option Nat
  userData : Option Nat

/-- `OfflineDataCacheService.saveAllACsForState` (the read-back
verification only logs). -/
def saveAllACsForState (state : String) (acs : List String)
    (c : CacheState) : CacheState :=
  { c with allACs := fun s => if s = state then some acs else c.allACs s }

/-- `OfflineDataCacheService.savePollingGroups`. -/
def savePollingGroups (state acIdentifier : String) (data : PGroup)
    (c : CacheState) : CacheState :=
  { c with
    pollingGroups :=
      assocSet c.pollingGroups (state ++ "::" ++ acIdentifier)
        { data with state := state, acIdentifier := acIdentifier } }

/-- `OfflineDataCacheService.savePollingStations` (stations payload kept
opaque). -/
def savePollingStations (state acIdentifier groupName : String)
    (payload : Nat) (c : CacheState) : CacheState :=
  { c with
    pollingStations :=
      assocSet c.pollingStations
        (state ++ "::" ++ acIdentifier ++ "::" ++ groupName) payload }

/-- `OfflineDataCacheService.saveGenderQuotas`. -/
def saveGenderQuotas (surveyId : String) (q : Nat) (c : CacheState) :
    CacheState :=
  { c with
    genderQuotas := fun k => if k = surveyId then some q else c.genderQuotas k }

/-- `OfflineDataCacheService.saveCatiSetNumber`. -/
def saveCatiSetNumber (surveyId : String) (n : Nat) (c : CacheState) :
    CacheState :=
  { c with
    catiSetNumbers :=
      fun k => if k = surveyId then some n else c.catiSetNumbers k }

/-- `OfflineDataCacheService.saveUserData`. -/
def saveUserData (u : Nat) (c : CacheState) : CacheState :=
  { c with userData := some u }

/-- One assigned survey, with the four assignment shapes the collector
reads (each interviewer assignment contributes its `assignedACs` list). -/
structure Survey where
  sid : String
  assignedInterviewers : List (List String)
  capiInterviewers : List (List String)
  catiInterviewers : List (List String)
  assignedACs : List String
  acAssignmentState : Option String
  mode : Option String
  assignedMode : Option String

/-- Responses of the external collaborators (remote API plus bundled
loader); `none` models a failed or non-success call. -/
structure ApiOracle where
  bundledACs : String → Option (List String)
  groupsByAC : String → String → Option PGroup
  stationsByGroup : String → String → String → Option Nat
  genderQuotas : String → Option Nat
  catiSetNumber : String → Option Nat
  currentUser : Option Nat

/-- The ACs one survey contributes to the assigned set (all four
assignment shapes; only truthy strings are added). -/
def surveyACs (s : Survey) : List String :=
  (s.assignedInterviewers.flatten ++ s.capiInterviewers.flatten
    ++ s.catiInterviewers.flatten ++ s.assignedACs).filter (fun a => a ≠ "")

/-- The deduplicated union of assigned ACs across the survey set. -/
def collectACs (surveys : List Survey) : List String :=
  ((surveys.map surveyACs).flatten).dedup

/-- The states named by the surveys (truthy `acAssignmentState` only). -/
def collectStates (surveys : List Survey) : List String :=
  (surveys.filterMap
    (fun s => if strTruthy s.acAssignmentState then s.acAssignmentState
              else none)).dedup

/-- The per-AC step of the pre-warm loop: fetch the groups, cache them,
then cache the stations of the first 10 groups (failures are per-item). -/
def preWarmAC (oracle : ApiOracle) (state ac : String) (c : CacheState) :
    CacheState :=
  match oracle.groupsByAC state ac with
  | none => c
  | some pg =>
    let c := savePollingGroups state ac pg c
    (pg.groups.take 10).foldl
      (fun c g =>
        let groupName := String.mk (trimWs g.toList)
        if groupName = "" then c
        else
          match oracle.stationsByGroup state ac groupName with
          | some stations => savePollingStations state ac groupName stations c
          | none => c)
      c

/-- The special-case branch for an empty assigned-AC set: pre-warm the
polling caches for the first 100 cached ACs of the state (trimmed,
non-empty names only). -/
def preWarm (oracle : ApiOracle) (state : String) (c : CacheState) :
    CacheState :=
  let rd := getAllACsForState state c.allACs
  let c := { c with allACs := rd.2 }
  if rd.1.isEmpty then c
  else
    let acNamesToCache :=
      ((rd.1.take 100).map (fun a => String.mk (trimWs a.toList))).filter
        (fun a => a ≠ "")
    acNamesToCache.foldl (fun c ac => preWarmAC oracle state ac c) c

/-- The orchestrator state: the module-level busy flag plus the cache. -/
structure Orch where
  isDownloading : Bool
  cache : CacheState

/-- `OfflineDataCacheService.downloadDependentDataForSurveys`: reject
re-entrant invocation via the busy flag; otherwise collect the assigned
ACs/state, cache the bundled AC list, then either pre-warm the polling
caches (no assigned ACs, early return) or fetch gender quotas, CATI set
numbers and a forced user refresh; the busy flag is cleared on every exit
path (`finally`). -/
def downloadDependentDataForSurveys (oracle : ApiOracle)
    (surveys : List Survey) (st : Orch) : Orch :=
  if st.isDownloading then st
  else
    let st1 : Orch := { st with isDownloading := true }
    let surveyIds := (surveys.map (·.sid)).dedup
    let state := (collectStates surveys).headD "West Bengal"
    let acsArray := collectACs surveys
    let c :=
      match oracle.bundledACs state with
      | some acs => saveAllACsForState state acs st1.cache
      | none => st1.cache
    if acsArray.isEmpty then
      { st1 with cache := preWarm oracle state c, isDownloading := false }
    else
      let c := surveyIds.foldl
        (fun c sidv =>
          match oracle.genderQuotas sidv with
          | some q => saveGenderQuotas sidv q c
          | none => c) c
      let c := surveys.foldl
        (fun c s =>
          if s.mode = some "cati" ∨ s.assignedMode = some "cati" then
            match oracle.catiSetNumber s.sid with
            | some n => saveCatiSetNumber s.sid n c
            | none => c
          else c) c
      let c :=
        match oracle.currentUser with
        | some u => saveUserData u c
        | none => c
      { st1 with cache := c, isDownloading := false }

/-! ## Infrastructure lemmas -/

theorem entryOk_obj_of_valid (i : Interview) (h1 : i.id ≠ "")
    (h2 : entrySize i ≤ 2000000) : entryOk (.obj i) = some i := by
  simp [entryOk, h1, h2]

theorem mem_cleanList_valid {i : Interview} {l : List RawEntry}
    (h : i ∈ cleanList l) : i.id ≠ "" ∧ entrySize i ≤ 2000000 := by
  simp only [cleanList, List.mem_filterMap] at h
  obtain ⟨e, _, hok⟩ := h
  cases e with
  | bad => simp [entryOk] at hok
  | obj j =>
    simp only [entryOk] at hok
    by_cases hc : j.id ≠ "" ∧ entrySize j ≤ 2000000
    · rw [if_pos hc] at hok
      cases hok
      exact hc
    · rw [if_neg hc] at hok
      cases hok

theorem cleanList_map_obj (vi : List Interview)
    (hv : ∀ i ∈ vi, i.id ≠ "" ∧ entrySize i ≤ 2000000) :
    cleanList (vi.map .obj) = vi := by
  induction vi with
  | nil => rfl
  | cons i t ih =>
    have hi := hv i (by simp)
    simp only [List.map_cons, cleanList, List.filterMap_cons,
      entryOk_obj_of_valid i hi.1 hi.2]
    exact congrArg (i :: ·) (ih fun j hj => hv j (by simp [hj]))

theorem cleanList_length_le (l : List RawEntry) :
    (cleanList l).length ≤ l.length :=
  List.length_filterMap_le _ _

theorem cleanList_eq_self_of_length {l : List RawEntry}
    (h : (cleanList l).length = l.length) : (cleanList l).map .obj = l := by
  induction l with
  | nil => rfl
  | cons e t ih =>
    cases he : entryOk e with
    | none =>
      exfalso
      have hle := cleanList_length_le t
      simp only [cleanList, List.filterMap_cons, he] at h
      simp only [cleanList] at hle
      simp at h
      omega
    | some i =>
      have he' : RawEntry.obj i = e := by
        cases e with
        | bad => simp [entryOk] at he
        | obj j =>
          simp only [entryOk] at he
          by_cases hc : j.id ≠ "" ∧ entrySize j ≤ 2000000
          · rw [if_pos hc] at he
            cases he
            rfl
          · rw [if_neg hc] at he
            cases he
      have hlen : (cleanList t).length = t.length := by
        simp only [cleanList, List.filterMap_cons, he, List.length_cons] at h
        simpa [cleanList] using h
      have htail := ih hlen
      simp only [cleanList] at htail
      simp only [cleanList, List.filterMap_cons, he, List.map_cons, htail, he']

/-- In both branches of the `rows` case the returned list is `cleanList l`
and the stored collection afterwards is exactly the valid entries. -/
theorem getOfflineInterviews_rows (st : StorageState) (l : List RawEntry)
    (h : st.interviews = .rows l) :
    getOfflineInterviews st =
      ⟨cleanList l,
       { st with interviews := .rows ((cleanList l).map .obj) }, false⟩ := by
  unfold getOfflineInterviews
  rw [h]
  by_cases hlt : (cleanList l).length < l.length
  · simp [hlt]
  · have hlen : (cleanList l).length = l.length :=
      Nat.le_antisymm (cleanList_length_le l) (Nat.le_of_not_lt hlt)
    simp only [hlt, if_neg, ite_false]
    have : (cleanList l).map RawEntry.obj = l := cleanList_eq_self_of_length hlen
    rw [show StorageState.mk (.rows ((cleanList l).map .obj)) st.syncQueue
          st.surveys st.lastSync = st by rw [this, ← h]]

theorem read_list_valid (st : StorageState) :
    ∀ i ∈ (getOfflineInterviews st).list,
      i.id ≠ "" ∧ entrySize i ≤ 2000000 := by
  intro i hi
  unfold getOfflineInterviews at hi
  cases h : st.interviews with
  | missing => rw [h] at hi; simp at hi
  | tooBig => rw [h] at hi; simp at hi
  | rows l =>
    rw [h] at hi
    by_cases hlt : (cleanList l).length < l.length
    · simp only [hlt, ite_true] at hi
      exact mem_cleanList_valid hi
    · simp only [hlt, ite_false] at hi
      exact mem_cleanList_valid hi

/-- Reading again immediately after a read returns the same list and leaves
the store unchanged (the cleanup already ran). -/
theorem getOfflineInterviews_idem (st : StorageState) :
    getOfflineInterviews ((getOfflineInterviews st).store) =
      ⟨(getOfflineInterviews st).list, (getOfflineInterviews st).store,
       false⟩ := by
  cases h : st.interviews with
  | missing =>
    have hr : getOfflineInterviews st = ⟨[], st, false⟩ := by
      unfold getOfflineInterviews
      rw [h]
    rw [hr]
    exact hr
  | tooBig =>
    have hr : getOfflineInterviews st =
        ⟨[], { st with interviews := .missing }, true⟩ := by
      unfold getOfflineInterviews
      rw [h]
    rw [hr]
    rfl
  | rows l =>
    rw [getOfflineInterviews_rows st l h]
    have hv : ∀ i ∈ cleanList l, i.id ≠ "" ∧ entrySize i ≤ 2000000 :=
      fun i hi => mem_cleanList_valid hi
    have := getOfflineInterviews_rows
      { st with interviews := .rows ((cleanList l).map .obj) }
      ((cleanList l).map .obj) rfl
    rw [this, cleanList_map_obj _ hv]

/-! ## Claim theorems -/

/-- C1: for every state `S`, `getAllACsForState S` returns either a list of
length at least the completeness floor for `S` (200 for `'West Bengal'`,
50 otherwise) or the empty list, and an under-floor cached entry is evicted
(the state's key is cleared) before the empty list is returned. -/
theorem getAllACsForState_floor_spec (state : String) (store : AllACsStore) :
    ((getAllACsForState state store).1 = [] ∨
      minExpectedACs state ≤ (getAllACsForState state store).1.length) ∧
    (∀ acs : List String, store state = some acs →
      acs.length < minExpectedACs state →
      (getAllACsForState state store).1 = [] ∧
      (getAllACsForState state store).2 state = none) := by
  constructor
  · unfold getAllACsForState
    cases h : store state with
    | none => simp
    | some acs =>
      by_cases hle : minExpectedACs state ≤ acs.length
      · simp [hle]
      · simp [hle]
  · intro acs h hlt
    unfold getAllACsForState
    rw [h]
    have hnle : ¬ minExpectedACs state ≤ acs.length := Nat.not_le_of_lt hlt
    simp [hnle, clearACsForState]

/-- A bucket holding an under-floor (100-entry) AC list for West Bengal. -/
def c1Store : AllACsStore :=
  fun s => if s = "West Bengal" then some (List.replicate 100 "AC") else none

/-- Witness for C1: on a 100-entry West Bengal cache the read returns `[]`
and evicts the entry. -/
theorem getAllACsForState_floor_spec_wit :
    (getAllACsForState "West Bengal" c1Store).1 = [] ∧
    (getAllACsForState "West Bengal" c1Store).2 "West Bengal" = none :=
  (getAllACsForState_floor_spec "West Bengal" c1Store).2
    (List.replicate 100 "AC") rfl (by simp [minExpectedACs])

/-- C4: on a stored collection, `getOfflineInterviews` returns exactly the
well-formed entries (objects with an id, serialized size at most 2 MB), and
afterwards the storage key holds exactly those valid entries (the cleaned
collection is written back whenever anything was filtered). -/
theorem getOfflineInterviews_filters_and_heals (st : StorageState)
    (l : List RawEntry) (h : st.interviews = .rows l) :
    (getOfflineInterviews st).list = cleanList l ∧
    (∀ i ∈ (getOfflineInterviews st).list,
      i.id ≠ "" ∧ entrySize i ≤ 2000000) ∧
    (getOfflineInterviews st).store.interviews =
      .rows ((cleanList l).map .obj) := by
  rw [getOfflineInterviews_rows st l h]
  exact ⟨rfl, fun i hi => mem_cleanList_valid hi, rfl⟩

/-- A well-formed interview record. -/
def c4Good : Interview :=
  ⟨"int1", "s1", none, none, some .pending, 0, none, none, 7⟩

/-- A stored collection with one well-formed record and one malformed
entry. -/
def c4Store : StorageState := ⟨.rows [.obj c4Good, .bad], [], none, none⟩

/-- Witness for C4: the malformed entry is filtered from the result and
from the persisted collection. -/
theorem getOfflineInterviews_filters_and_heals_wit :
    (getOfflineInterviews c4Store).list = [c4Good] ∧
    (getOfflineInterviews c4Store).store.interviews = .rows [.obj c4Good] := by
  have h := getOfflineInterviews_filters_and_heals c4Store
    [.obj c4Good, .bad] rfl
  refine ⟨?_, ?_⟩
  · rw [h.1]
    decide
  · rw [h.2.2]
    decide

/-- C5: the `Row too big` whole-collection read failure makes
`getOfflineInterviews` discard the entire stored collection (the storage
key is removed) and return `[]`, and the distinguishable warning is raised
exactly in this condition. -/
theorem getOfflineInterviews_rowTooBig (st : StorageState) :
    ((getOfflineInterviews st).rowTooBigWarned = true ↔
      st.interviews = .tooBig) ∧
    (st.interviews = .tooBig →
      (getOfflineInterviews st).list = [] ∧
      (getOfflineInterviews st).store = { st with interviews := .missing }) := by
  cases h : st.interviews with
  | missing =>
    have hr : getOfflineInterviews st = ⟨[], st, false⟩ := by
      unfold getOfflineInterviews
      rw [h]
    simp [hr, h]
  | tooBig =>
    have hr : getOfflineInterviews st =
        ⟨[], { st with interviews := .missing }, true⟩ := by
      unfold getOfflineInterviews
      rw [h]
    simp [hr, h]
  | rows l =>
    simp [getOfflineInterviews_rows st l h, h]

/-- A storage state whose interview collection read fails oversized. -/
def c5Store : StorageState := ⟨.tooBig, [3], some 9, some 1⟩

/-- Witness for C5: the oversized collection is dropped wholesale, the
result is empty, and the warning is raised. -/
theorem getOfflineInterviews_rowTooBig_wit :
    (getOfflineInterviews c5Store).list = [] ∧
    (getOfflineInterviews c5Store).store =
      { c5Store with interviews := .missing } ∧
    (getOfflineInterviews c5Store).rowTooBigWarned = true := by
  have h := getOfflineInterviews_rowTooBig c5Store
  have h2 := h.2 rfl
  exact ⟨h2.1, h2.2, h.1.mpr rfl⟩

/-- C6: `getPendingInterviews` returns exactly the interviews of
`getOfflineInterviews` whose status is absent, `'pending'` or `'failed'`;
`'synced'` and `'syncing'` records are never included. -/
theorem getPendingInterviews_subset (st : StorageState) (i : Interview) :
    (i ∈ (getPendingInterviews st).1 ↔
      i ∈ (getOfflineInterviews st).list ∧
        (i.status = none ∨ i.status = some .pending ∨
          i.status = some .failed)) ∧
    (i ∈ (getPendingInterviews st).1 →
      i.status ≠ some .synced ∧ i.status ≠ some .syncing) := by
  have hchar : isPendingStatus i.status = true ↔
      (i.status = none ∨ i.status = some .pending ∨
        i.status = some .failed) := by
    cases hs : i.status with
    | none => simp [isPendingStatus]
    | some s => cases s <;> simp [isPendingStatus]
  constructor
  · simp only [getPendingInterviews, List.mem_filter]
    rw [hchar]
  · intro hi
    simp only [getPendingInterviews, List.mem_filter] at hi
    rcases hchar.mp hi.2 with h | h | h <;> simp [h]

/-- A pending record stored next to a synced one. -/
def c6Pending : Interview :=
  ⟨"p1", "s", none, none, some .pending, 0, none, none, 3⟩

/-- A synced record. -/
def c6Synced : Interview :=
  ⟨"p2", "s", none, none, some .synced, 0, none, none, 3⟩

/-- A collection holding one pending and one synced record. -/
def c6Store : StorageState :=
  ⟨.rows [.obj c6Pending, .obj c6Synced], [], none, none⟩

/-- Witness for C6: the pending record is listed and its status is neither
`'synced'` nor `'syncing'`. -/
theorem getPendingInterviews_subset_wit :
    c6Pending ∈ (getPendingInterviews c6Store).1 ∧
    c6Pending.status ≠ some IStatus.synced ∧
    c6Pending.status ≠ some IStatus.syncing := by
  have h := getPendingInterviews_subset c6Store c6Pending
  have hm : c6Pending ∈ (getPendingInterviews c6Store).1 :=
    h.1.mpr ⟨by decide, by decide⟩
  exact ⟨hm, h.2 hm⟩

theorem stripSurvey_id (x : Interview) : (stripSurvey x).id = x.id := rfl

theorem stripSurvey_status (x : Interview) :
    (stripSurvey x).status = x.status := rfl

theorem stripSurvey_survey (x : Interview) :
    (stripSurvey x).survey = none := rfl

theorem mem_upsert {s : Interview} (hs : s.status ≠ none)
    (l : List Interview) :
    ∀ i ∈ upsertInterview s l, i = s ∨ i ∈ l := by
  induction l with
  | nil =>
    intro i hi
    simp only [upsertInterview, if_neg hs, List.mem_singleton] at hi
    exact Or.inl hi
  | cons j t ih =>
    intro i hi
    by_cases hj : j.id = s.id
    · simp only [upsertInterview, if_pos hj, List.mem_cons] at hi
      rcases hi with rfl | hi
      · exact Or.inl rfl
      · exact Or.inr (by simp [hi])
    · simp only [upsertInterview, if_neg hj, List.mem_cons] at hi
      rcases hi with rfl | hi
      · exact Or.inr (by simp)
      · rcases ih i hi with h | h
        · exact Or.inl h
        · exact Or.inr (by simp [h])

theorem find_upsert (s : Interview) (hs : s.status ≠ none)
    (l : List Interview) :
    (upsertInterview s l).find? (fun i => i.id = s.id) = some s := by
  induction l with
  | nil => simp [upsertInterview, if_neg hs, List.find?]
  | cons j t ih =>
    by_cases hj : j.id = s.id
    · simp [upsertInterview, if_pos hj, List.find?]
    · simp [upsertInterview, if_neg hj, List.find?, hj, ih]

/-- C3: saving an interview and immediately looking it up by id returns a
record with the same id and status, with the embedded survey body stored
as `null`. -/
theorem saveOfflineInterview_roundTrip (x : Interview) (st : StorageState)
    (s₀ : IStatus) (hid : x.id ≠ "") (hst : x.status = some s₀)
    (hsz : entrySize (stripSurvey x) ≤ 2000000) :
    (getOfflineInterviewById x.id (saveOfflineInterview x st)).1 =
      some (stripSurvey x) ∧
    (stripSurvey x).id = x.id ∧ (stripSurvey x).status = x.status ∧
    (stripSurvey x).survey = none := by
  have hsne : (stripSurvey x).status ≠ none := by
    rw [stripSurvey_status, hst]
    exact Option.some_ne_none s₀
  have hsave : saveOfflineInterview x st =
      { (getOfflineInterviews st).store with
        interviews :=
          .rows ((upsertInterview (stripSurvey x)
            (getOfflineInterviews st).list).map .obj) } := rfl
  have hvalid : ∀ i ∈ upsertInterview (stripSurvey x)
      (getOfflineInterviews st).list, i.id ≠ "" ∧ entrySize i ≤ 2000000 := by
    intro i hi
    rcases mem_upsert hsne _ i hi with rfl | hmem
    · exact ⟨by rw [stripSurvey_id]; exact hid, hsz⟩
    · exact read_list_valid st i hmem
  have hread := getOfflineInterviews_rows (saveOfflineInterview x st)
    ((upsertInterview (stripSurvey x) (getOfflineInterviews st).list).map .obj)
    (by rw [hsave])
  unfold getOfflineInterviewById
  rw [hread]
  refine ⟨?_, rfl, rfl, rfl⟩
  show ((cleanList _).find? fun i => i.id = x.id) = some (stripSurvey x)
  rw [cleanList_map_obj _ hvalid]
  exact find_upsert (stripSurvey x) hsne _

/-- A concrete interview carrying an embedded survey body. -/
def c3X : Interview :=
  ⟨"offline_1_ab", "s9", some ⟨some "The Survey", 120⟩, none,
    some .pending, 0, none, none, 40⟩

/-- An empty storage state. -/
def c3Store : StorageState := ⟨.missing, [], none, none⟩

/-- Witness for C3: the round trip on `c3X` over an empty store. -/
theorem saveOfflineInterview_roundTrip_wit :
    (getOfflineInterviewById c3X.id (saveOfflineInterview c3X c3Store)).1 =
      some (stripSurvey c3X) ∧
    (stripSurvey c3X).id = c3X.id ∧
    (stripSurvey c3X).status = c3X.status ∧
    (stripSurvey c3X).survey = none :=
  saveOfflineInterview_roundTrip c3X c3Store .pending (by decide) rfl
    (by decide)

theorem applyStatusUpdate_status (i : Interview) (status : IStatus)
    (err : Option String) (now : Nat) :
    (applyStatusUpdate i status err now).status = some status := by
  unfold applyStatusUpdate
  by_cases h : strTruthy err
  · simp [h]
  · simp [h]

theorem applyStatusUpdate_id (i : Interview) (status : IStatus)
    (err : Option String) (now : Nat) :
    (applyStatusUpdate i status err now).id = i.id := by
  unfold applyStatusUpdate
  by_cases h : strTruthy err
  · simp [h]
  · simp [h]

/-- A record already in status `'synced'`. -/
def c2Synced : Interview :=
  ⟨"a", "s1", none, some "N", some .synced, 0, none, none, 10⟩

/-- A collection holding only the synced record. -/
def c2Store : StorageState := ⟨.rows [.obj c2Synced], [], none, none⟩

/-- Counterexample to C2: the record with id `"a"` is stored as
`'synced'`, yet `updateInterviewStatus "a" 'pending'` moves it to
`'pending'` — the code enforces no transition guard and `'synced'` is not
terminal. -/
theorem updateInterviewStatus_synced_escape_cex :
    (getOfflineInterviewById "a" c2Store).1.map (·.status) =
      some (some IStatus.synced) ∧
    (getOfflineInterviewById "a"
        (updateInterviewStatus "a" IStatus.pending none 5 c2Store)).1.map
      (·.status) = some (some IStatus.pending) := by
  decide

/-- C2 (amended): `updateInterviewStatus` applies the requested target
status unconditionally to whatever record it finds — every transition is
permitted, including out of `'synced'`; the stored record afterwards
carries exactly the requested status. -/
theorem updateInterviewStatus_unconditional (st : StorageState)
    (interviewId : String) (status : IStatus) (err : Option String)
    (now : Nat) (i : Interview)
    (hfind : (getOfflineInterviews st).list.find?
      (fun j => j.id = interviewId) = some i)
    (hsz : entrySize (stripSurvey (applyStatusUpdate i status err now)) ≤
      2000000) :
    (getOfflineInterviewById interviewId
        (updateInterviewStatus interviewId status err now st)).1 =
      some (stripSurvey (applyStatusUpdate i status err now)) ∧
    (stripSurvey (applyStatusUpdate i status err now)).status =
      some status := by
  have hmem : i ∈ (getOfflineInterviews st).list :=
    List.mem_of_find?_eq_some hfind
  have hid : i.id = interviewId := by
    have := List.find?_some hfind
    exact of_decide_eq_true this
  have hvi := read_list_valid st i hmem
  have hsid : (stripSurvey (applyStatusUpdate i status err now)).id =
      interviewId := by
    rw [stripSurvey_id, applyStatusUpdate_id]
    exact hid
  have hsne : (stripSurvey (applyStatusUpdate i status err now)).status ≠
      none := by
    rw [stripSurvey_status, applyStatusUpdate_status]
    exact Option.some_ne_none status
  have hupd : updateInterviewStatus interviewId status err now st =
      saveOfflineInterview (applyStatusUpdate i status err now)
        ((getOfflineInterviews st).store) := by
    unfold updateInterviewStatus
    show (match (getOfflineInterviews st).list.find?
            (fun j => j.id = interviewId) with
          | none => (getOfflineInterviews st).store
          | some i => saveOfflineInterview (applyStatusUpdate i status err now)
              (getOfflineInterviews st).store) = _
    rw [hfind]
  have hsave : saveOfflineInterview (applyStatusUpdate i status err now)
      ((getOfflineInterviews st).store) =
      { (getOfflineInterviews st).store with
        interviews :=
          .rows ((upsertInterview
            (stripSurvey (applyStatusUpdate i status err now))
            (getOfflineInterviews st).list).map .obj) } := by
    unfold saveOfflineInterview
    rw [getOfflineInterviews_idem st]
  have hvalid : ∀ j ∈ upsertInterview
      (stripSurvey (applyStatusUpdate i status err now))
      (getOfflineInterviews st).list,
      j.id ≠ "" ∧ entrySize j ≤ 2000000 := by
    intro j hj
    rcases mem_upsert hsne _ j hj with rfl | hmem'
    · refine ⟨?_, hsz⟩
      rw [stripSurvey_id, applyStatusUpdate_id, hid]
      rw [hid] at hvi
      exact hvi.1
    · exact read_list_valid st j hmem'
  have hread := getOfflineInterviews_rows
    (updateInterviewStatus interviewId status err now st)
    ((upsertInterview (stripSurvey (applyStatusUpdate i status err now))
      (getOfflineInterviews st).list).map .obj)
    (by rw [hupd, hsave])
  refine ⟨?_, by rw [stripSurvey_status, applyStatusUpdate_status]⟩
  unfold getOfflineInterviewById
  rw [hread]
  show ((cleanList _).find? fun j => j.id = interviewId) = some _
  rw [cleanList_map_obj _ hvalid, ← hsid]
  exact find_upsert _ hsne _

/-- Witness for the amended C2: on the concrete synced record the lookup
after the update returns the record with status `'pending'`. -/
theorem updateInterviewStatus_unconditional_wit :
    (getOfflineInterviewById "a"
        (updateInterviewStatus "a" IStatus.pending none 5 c2Store)).1 =
      some (stripSurvey (applyStatusUpdate c2Synced IStatus.pending none 5)) ∧
    (stripSurvey (applyStatusUpdate c2Synced IStatus.pending none 5)).status =
      some IStatus.pending :=
  updateInterviewStatus_unconditional c2Store "a" IStatus.pending none 5
    c2Synced (by decide) (by decide)

/-- A well-formed record stored next to a malformed entry. -/
def c10Good : Interview :=
  ⟨"keep1", "s", none, none, some .pending, 0, none, none, 4⟩

/-- A stored collection containing a malformed entry. -/
def c10Store : StorageState := ⟨.rows [.obj c10Good, .bad], [7], some 1, none⟩

/-- Counterexample to C10: deleting an id that is not present does not
leave the stored collection unchanged — the malformed entry is dropped by
the read-path filter `deleteSyncedInterview` goes through, so the stored
collection shrinks although no record carries the deleted id. -/
theorem deleteSyncedInterview_absent_cex :
    (deleteSyncedInterview "zzz" c10Store).interviews =
      .rows [.obj c10Good] ∧
    (deleteSyncedInterview "zzz" c10Store).interviews ≠
      c10Store.interviews ∧
    c10Good.id ≠ "zzz" := by
  decide

/-- C10 (amended): on a stored collection all of whose entries are
well-formed, `deleteSyncedInterview id` replaces the collection with
exactly the records whose id differs from the given id, leaves every other
storage bucket unchanged, and deleting an absent id leaves the stored
collection unchanged; entries the read-path filter rejects are additionally
dropped regardless of the id. -/
theorem deleteSyncedInterview_frame (st : StorageState)
    (vi : List Interview) (interviewId : String)
    (h : st.interviews = .rows (vi.map .obj))
    (hv : ∀ i ∈ vi, i.id ≠ "" ∧ entrySize i ≤ 2000000) :
    (deleteSyncedInterview interviewId st).interviews =
      .rows ((vi.filter (fun i => i.id ≠ interviewId)).map .obj) ∧
    (deleteSyncedInterview interviewId st).syncQueue = st.syncQueue ∧
    (deleteSyncedInterview interviewId st).surveys = st.surveys ∧
    (deleteSyncedInterview interviewId st).lastSync = st.lastSync ∧
    ((∀ i ∈ vi, i.id ≠ interviewId) →
      (deleteSyncedInterview interviewId st).interviews = st.interviews) := by
  have hread := getOfflineInterviews_rows st (vi.map .obj) h
  have hclean : cleanList (vi.map .obj) = vi := cleanList_map_obj vi hv
  have hdel : deleteSyncedInterview interviewId st =
      { (getOfflineInterviews st).store with
        interviews :=
          .rows (((getOfflineInterviews st).list.filter
            (fun i => i.id ≠ interviewId)).map .obj) } := rfl
  rw [hdel, hread, hclean]
  refine ⟨rfl, rfl, rfl, rfl, ?_⟩
  intro habs
  have : vi.filter (fun i => i.id ≠ interviewId) = vi :=
    List.filter_eq_self.mpr fun i hi => by
      simpa using habs i hi
  rw [this, ← h]

/-- A two-record well-formed collection. -/
def c10A : Interview := ⟨"idA", "s", none, none, some .synced, 0, none, none, 4⟩

/-- The second record. -/
def c10B : Interview := ⟨"idB", "s", none, none, some .pending, 0, none, none, 4⟩

/-- The well-formed two-record store. -/
def c10Store2 : StorageState :=
  ⟨.rows [.obj c10A, .obj c10B], [7], some 1, none⟩

/-- Witness for the amended C10: deleting `"idA"` keeps exactly `c10B` and
leaves the other buckets untouched. -/
theorem deleteSyncedInterview_frame_wit :
    (deleteSyncedInterview "idA" c10Store2).interviews =
      .rows ([c10A, c10B].filter (fun i => i.id ≠ "idA") |>.map .obj) ∧
    (deleteSyncedInterview "idA" c10Store2).syncQueue = c10Store2.syncQueue ∧
    (deleteSyncedInterview "idA" c10Store2).surveys = c10Store2.surveys ∧
    (deleteSyncedInterview "idA" c10Store2).lastSync = c10Store2.lastSync := by
  have h := deleteSyncedInterview_frame c10Store2 [c10A, c10B] "idA" rfl
    (by decide)
  exact ⟨h.1, h.2.1, h.2.2.1, h.2.2.2.1⟩

/-- An empty cache for the orchestrator. -/
def c9Cache : CacheState :=
  ⟨fun _ => none, [], [], fun _ => none, fun _ => none, none⟩

/-- An oracle on which every collaborator call fails. -/
def c9Oracle : ApiOracle :=
  ⟨fun _ => none, fun _ _ => none, fun _ _ _ => none, fun _ => none,
    fun _ => none, none⟩

/-- An orchestrator state whose busy flag is set (a run is in flight). -/
def c9Busy : Orch := ⟨true, c9Cache⟩

/-- C9: a call to `downloadDependentDataForSurveys` made while the
`isDownloading` busy flag is set returns immediately as a no-op — the whole
orchestrator state (every cache bucket, nothing queued) is unchanged. -/
theorem downloadDependentData_busy_noop (oracle : ApiOracle)
    (surveys : List Survey) (st : Orch) (h : st.isDownloading = true) :
    downloadDependentDataForSurveys oracle surveys st = st := by
  unfold downloadDependentDataForSurveys
  simp [h]

/-- Witness for C9: the busy state is returned unchanged. -/
theorem downloadDependentData_busy_noop_wit :
    downloadDependentDataForSurveys c9Oracle [] c9Busy = c9Busy :=
  downloadDependentData_busy_noop c9Oracle [] c9Busy rfl

/-- The cached polling-groups entry stored under the AC-code key. -/
def examplePG : PGroup :=
  ⟨"West Bengal", "23", some "Example AC (SC)", ["G1"], 0⟩

/-- A polling-groups cache populated only under `"West Bengal::23"`. -/
def c8Cache : List (String × PGroup) := [("West Bengal::23", examplePG)]

/-- C8: with the cache populated only under key `"West Bengal::23"`
(stored `ac_name` `"Example AC (SC)"`), `getPollingGroups "West Bengal"
"Example AC"` misses the exact key but returns the entry via the
normalized-display-name fallback. -/
theorem getPollingGroups_fallback :
    getPollingGroups "West Bengal" "Example AC" c8Cache = some examplePG ∧
    lookupAssoc c8Cache ("West Bengal" ++ "::" ++ "Example AC") = none := by
  decide

/-- Counterexample to C7: on the modelled bundled dataset, calling
`findACNumberByName` directly with the raw survey spelling
`"Cooch Behar Uttar"` returns `null` — it does not resolve to the canonical
entry `"COOCHBEHAR UTTAR (SC)"` (identifier `"5"`), because the missing
space inside `"COOCHBEHAR"` defeats every matching tier. -/
theorem findACNumberByName_raw_cex :
    findACNumberByName bundledDatasetModel "West Bengal"
      "Cooch Behar Uttar" = none ∧
    lookupAssoc bundledDatasetModel "West Bengal" =
      some [("5", ⟨some "COOCHBEHAR UTTAR (SC)"⟩),
            ("6", ⟨some "COOCHBEHAR DAKSHIN"⟩)] := by
  decide

/-- C7 (amended): the resolution succeeds once the input passes through the
`normalizeACName` spelling table first —
`findACNumberByName (normalizeACName "Cooch Behar Uttar")` returns the
identifier of the canonical `"COOCHBEHAR UTTAR (SC)"` entry. -/
theorem findACNumberByName_normalized :
    findACNumberByName bundledDatasetModel "West Bengal"
      (normalizeACName "Cooch Behar Uttar") = some "5" ∧
    normalizeACName "Cooch Behar Uttar" = "COOCHBEHAR UTTAR (SC)" := by
  decide

end OpineSync
